import Mathlib

/-!
Shallow embedding of `jenkins_uploader.go`: a batch pipeline that validates
package manifests, assesses per-cluster staleness, downloads artifacts once
per stale package and uploads them to every stale cluster, orchestrated by a
futures pool (`Futures` / `AddFuture` / `BlockUntilComplete`).

External effects (HTTP probe, HTTP download, the `aurora` command-line tool,
the filesystem) are modelled as oracle parameters describing the outcome the
environment produces for a given request; everything the Go code computes
from those outcomes is translated directly from the source.

Each concurrently spawned task is modelled as a function returning the pair
`(sends, record)`: the list of values the goroutine sends on its future
channel (the Go contract expects exactly one), and the package record after
the task's mutations.
-/

namespace JenkinsUploader

/-- The `Package` struct of the Go source.  Go maps (`NeedUpdate`, `Updated`)
are modelled as association lists with the Go semantics that reading an
absent key (including from a `nil` map) yields `false`; the Go zero value of
the struct is `default`. -/
structure Package where
  artifact : String
  file : String
  project : String
  revision : String
  needUpdate : List (String × Bool)
  updated : List (String × Bool)
  valid : Bool
deriving Repr, DecidableEq, Inhabited

/-- Go map read `m[k]` for a `map[string]bool`: the stored value, or `false`
when the key is absent (or the map is nil). -/
def lookupBool (m : List (String × Bool)) (k : String) : Bool :=
  ((m.find? (fun kv => kv.1 == k)).map (fun kv => kv.2)).getD false

/-- Whether the key is present in the map at all (Go `_, ok := m[k]`). -/
def hasKey (m : List (String × Bool)) (k : String) : Bool :=
  (m.find? (fun kv => kv.1 == k)).isSome

/-- Go map write `m[k] = v`: overwrite the entry when present, append it
otherwise. -/
def setAssoc (m : List (String × Bool)) (k : String) (v : Bool) : List (String × Bool) :=
  if m.any (fun kv => kv.1 == k) then
    m.map (fun kv => if kv.1 == k then (k, v) else kv)
  else
    m ++ [(k, v)]

/-- Source `acceptableMIMETypes`: accept .zip, .tgz and .gz files. -/
def acceptableMIMETypes : List String :=
  ["application/x-compressed", "application/x-gzip", "application/zip"]

/-- Source `AllClusters`. -/
def AllClusters : List String := ["atla", "smf1"]

/-- Source `stringInArray`. -/
def stringInArray (s : String) (list : List String) : Bool :=
  match list with
  | [] => false
  | v :: rest => if s == v then true else stringInArray s rest

/-- A character matched by the character class of the `shaMatch` regular
expression `[0-9a-f]\x7b40\x7d`. -/
def isShaChar (c : Char) : Bool :=
  (('0' ≤ c && c ≤ '9') || ('a' ≤ c && c ≤ 'f'))

/-- The scanning loop of `shaMatch.FindAllString(s, -1)`: at each position,
if the next 40 characters are all in `[0-9a-f]` they form a match and
scanning resumes after them; otherwise scanning advances one character.
`fuel` is a structural-recursion bound on the number of scan steps; every
step strictly shortens the list, so any `fuel ≥ cs.length` yields the
unbounded scan. -/
def findAllShaFuel : Nat → List Char → List String
  | 0, _ => []
  | _, [] => []
  | fuel + 1, c :: rest =>
    if ((c :: rest).take 40).length == 40 && ((c :: rest).take 40).all isShaChar then
      String.mk ((c :: rest).take 40) :: findAllShaFuel fuel (rest.drop 39)
    else
      findAllShaFuel fuel rest

/-- Source `shaMatch.FindAllString(s, -1)`: all successive non-overlapping
leftmost match results of 40 hex characters. -/
def findAllSha (cs : List Char) : List String :=
  findAllShaFuel cs.length cs

/-- Go `path.Join(a, b)` at the interface level used here: join with a
slash (path cleaning is irrelevant to the properties below). -/
def pathJoin (a b : String) : String := a ++ "/" ++ b

/-- Drop trailing slash characters (first step of Go `path.Base`). -/
def dropTrailingSlashes (cs : List Char) : List Char :=
  (cs.reverse.dropWhile (fun c => c == '/')).reverse

/-- The portion after the last slash (second step of Go `path.Base`). -/
def afterLastSlash (cs : List Char) : List Char :=
  (cs.reverse.takeWhile (fun c => c != '/')).reverse

/-- Go `path.Base`: "." for the empty path, otherwise strip trailing
slashes and keep the last element; "/" when only slashes remain. -/
def pathBase (s : String) : String :=
  if s == "" then "." else
    let cs := dropTrailingSlashes s.data
    let base := afterLastSlash cs
    if base == [] then "/" else String.mk base

/-- The prefix of `cs` before the first occurrence of the (nonempty)
separator `sep`; `cs` itself when `sep` does not occur.  This is
`strings.Split(cs, sep)[0]` for a nonempty separator. -/
def takeBeforeSub (sep : List Char) (cs : List Char) : List Char :=
  match cs with
  | [] => []
  | c :: rest =>
    if (c :: rest).take sep.length == sep then []
    else c :: takeBeforeSub sep rest

/-- Source expression `strings.Split(path.Base(jsonFile), ".json")[0]`: the project name the
decode step derives from the manifest file name. -/
def projectFromFile (jsonFile : String) : String :=
  String.mk (takeBeforeSub ".json".data (pathBase jsonFile).data)

/-- The fields `json.Decoder.Decode` can populate in a `Package` (only
these are settable from a manifest; the maps and `Valid` have no exported
JSON presence in practice for this program's manifests). -/
structure ManifestJson where
  artifact : String
  file : String
  project : String
  revision : String
deriving Repr, DecidableEq, Inhabited

/-- Source `decodeJsonFile`.  The filesystem/JSON collaborators are
the oracle `content`: `none` models `os.Open` failing (the subsequent decode
of the nil file also fails, leaving the record at its zero value), `some
none` models `Decode` failing, and `some (some m)` a successful decode.  On
every path the goroutine sets `Project` from the file name and sends the
record exactly once; the returned list is the values sent on the future. -/
def decodeJsonFile (jsonFile : String) (content : Option (Option ManifestJson)) :
    List Package :=
  let p : Package := default
  let p :=
    match content with
    | none => p
    | some none => p
    | some (some m) =>
      { p with artifact := m.artifact, file := m.file,
               project := m.project, revision := m.revision }
  let p := { p with project := projectFromFile jsonFile }
  [p]

/-- The outcome the environment produces for one run of the download task's
effects, in the order the Go code performs them. -/
inductive DownloadOutcome where
  | mkdirFail
  | createFail
  | fetchFail
  | copyFail
  | ok (bytes : Nat)
deriving Repr, DecidableEq, Inhabited

/-- Source `(p *Package) DownloadArtifact(basedir)`.  Returns
`(sends, record)`: the values the goroutine sends on its future, and the
record afterwards.  On `MkdirAll`, `os.Create`, `http.Get` or `io.Copy`
failure the goroutine logs and returns early: the record's `File` stays
unset and nothing is sent.  On success it sets `File` and sends once. -/
def DownloadArtifact (basedir : String) (outcome : DownloadOutcome) (p : Package) :
    List Package × Package :=
  match outcome with
  | .mkdirFail => ([], p)
  | .createFail => ([], p)
  | .fetchFail => ([], p)
  | .copyFail => ([], p)
  | .ok _ =>
    let outpath := pathJoin basedir p.project
    let outname := pathJoin outpath (pathBase p.artifact)
    let p := { p with file := outname }
    ([p], p)

/-- Source `(p *Package) CheckIfValidPackage()`.  The HTTP probe is
the oracle `probe`: `none` models `http.Get` returning an error, `some ct`
a response whose `content-type` header is `ct`.  `Valid` is set to `false`
and then to `true` exactly when the probe succeeded with a whitelisted
content type; the record is sent exactly once on every path. -/
def CheckIfValidPackage (probe : Option String) (p : Package) :
    List Package × Package :=
  let p := { p with valid := false }
  let p :=
    match probe with
    | none => p
    | some ct => if stringInArray ct acceptableMIMETypes then { p with valid := true } else p
  ([p], p)

/-- Source `(p *Package) clusterOkToUpdate(cluster)`.  The external
`aurora package_versions` invocation is the oracle `res`: `Except.error e`
models `cmd.Run()` failing with error text `e`, `Except.ok out` a successful
run with captured standard output `out`. -/
def clusterOkToUpdate (p : Package) (cluster : String) (res : Except String String) :
    Bool × String :=
  match res with
  | .error e => (true, e)
  | .ok out =>
    let shas := findAllSha out.data
    if shas.length < 1 then
      (true, "No shas found for " ++ p.project ++ " in " ++ cluster)
    else
      let latest := shas.getLastD ""
      if p.revision == latest then
        (false, p.project ++ " does not need to be updated.")
      else
        (true, p.project ++ " is not up to date in " ++ cluster)

/-- Source `(p *Package) IsUpdateNeeded()`: re-creates the
`NeedUpdate` map, then for each cluster of `AllClusters` (sequentially,
within the one task) stores `clusterOkToUpdate`'s decision; sends the record
exactly once.  The oracle `tool` maps (cluster, project) to the outcome of
the external query tool. -/
def IsUpdateNeeded (tool : String → String → Except String String) (p : Package) :
    List Package × Package :=
  let p := { p with needUpdate := [] }
  let p := AllClusters.foldl
    (fun acc cluster =>
      { acc with needUpdate :=
          setAssoc acc.needUpdate cluster (clusterOkToUpdate acc cluster (tool cluster acc.project)).1 })
    p
  ([p], p)

/-- The part of `(p *Package) UpdatePackage(cluster)` that runs in the
*spawning* goroutine, before the task body starts: `p.Updated =
make(map[string]bool)` re-creates the `Updated` map. -/
def UpdatePackageSpawn (p : Package) : Package :=
  { p with updated := [] }

/-- The task body of `UpdatePackage`: runs the external `aurora
package_add_version` tool (oracle `upOk`: `true` models exit success) and
stores the per-cluster outcome in whatever `Updated` map the record holds
at that moment. -/
def UpdatePackageRun (upOk : Bool) (cluster : String) (p : Package) : Package :=
  { p with updated := setAssoc p.updated cluster upOk }

/-- Source `UpdatePackage` as one unit (spawn-time map reset, then task body):
`(sends, record)`; the record is sent exactly once on both tool outcomes. -/
def UpdatePackage (upOk : Bool) (cluster : String) (p : Package) :
    List Package × Package :=
  let p := UpdatePackageRun upOk cluster (UpdatePackageSpawn p)
  ([p], p)

/-- The `Futures` pool of the source.  `itemsInChannels` is the
outstanding-count; `received` counts how many completions have been taken
off the shared channel so far (the channel position), so that the drain
loop's receives are observable in the model. -/
structure Futures where
  itemsInChannels : Nat
  received : Nat
deriving Repr, DecidableEq, Inhabited

/-- Source `(futures *Futures) AddFuture(future)`: spawn a
forwarding goroutine (which relays the future's single value onto the
shared channel) and increment the outstanding-count by one. -/
def AddFuture (f : Futures) : Futures :=
  { f with itemsInChannels := f.itemsInChannels + 1 }

/-- The loop of `BlockUntilComplete`: `for ; n > 0; n-- \x7b <-ch \x7d`,
on the pair (outstanding-count, receives-so-far).  Each iteration performs
one receive from the shared channel and one decrement. -/
def BlockUntilCompleteLoop : Nat → Nat → Nat × Nat
  | 0, recvd => (0, recvd)
  | n + 1, recvd => BlockUntilCompleteLoop n (recvd + 1)

/-- Source `(futures *Futures) BlockUntilComplete(reason)`:
logs `reason` and drains the shared channel `itemsInChannels` times. -/
def BlockUntilComplete (f : Futures) : Futures :=
  let r := BlockUntilCompleteLoop f.itemsInChannels f.received
  { itemsInChannels := r.1, received := r.2 }

/-- Source `GetAllPackages`: one `decodeJsonFile` future per glob
match, then one receive per future appending the decoded record.  The glob
result and per-file contents are oracles. -/
def GetAllPackages (globMatches : List String)
    (content : String → Option (Option ManifestJson)) : List Package :=
  globMatches.flatMap (fun m => decodeJsonFile m (content m))

/-- main's validation stage: spawn `CheckIfValidPackage` for every package
and drain; the list holds each record after its task completed. -/
def validationStage (probe : String → Option String) (pkgs : List Package) :
    List Package :=
  pkgs.map (fun p => (CheckIfValidPackage (probe p.artifact) p).2)

/-- main's assessment stage: spawn `IsUpdateNeeded` only for valid packages
and drain; invalid records pass through untouched. -/
def assessmentStage (tool : String → String → Except String String)
    (pkgs : List Package) : List Package :=
  pkgs.map (fun p => if p.valid then (IsUpdateNeeded tool p).2 else p)

/-- main's inner download loop for one package: walk `clusters` and, at the
first cluster whose `NeedUpdate` entry is true, spawn one download task and
`break`.  Returns the number of download tasks spawned for this package. -/
def spawnDownloadForPkg (clusters : List String) (p : Package) : Nat :=
  match clusters with
  | [] => 0
  | c :: rest => if lookupBool p.needUpdate c then 1 else spawnDownloadForPkg rest p

/-- Whether main's download loop spawns a download task for `p`. -/
def needsDownload (p : Package) : Bool :=
  AllClusters.any (fun c => lookupBool p.needUpdate c)

/-- The record mutations of main's download stage: each package with a
stale cluster runs one `DownloadArtifact` task. -/
def downloadStage (dl : String → DownloadOutcome) (basedir : String)
    (pkgs : List Package) : List Package :=
  pkgs.map (fun p => if needsDownload p then (DownloadArtifact basedir (dl p.artifact) p).2 else p)

/-- main's upload loop for one package under the schedule in which each
spawned `UpdatePackage` task runs to completion before the next cluster's
task is spawned (a legal interleaving of the goroutines): for each stale
cluster, the spawn-time map reset and then the task body. -/
def uploadClustersEager (upOk : String → Bool) (clusters : List String)
    (p : Package) : Package :=
  clusters.foldl
    (fun acc c =>
      if lookupBool acc.needUpdate c then
        UpdatePackageRun (upOk c) c (UpdatePackageSpawn acc)
      else acc)
    p

/-- main's upload loop for one package under the schedule in which all
spawn-time map resets happen before any task body runs (the other extreme
legal interleaving). -/
def uploadClustersLazy (upOk : String → Bool) (clusters : List String)
    (p : Package) : Package :=
  let stale := clusters.filter (fun c => lookupBool p.needUpdate c)
  let p := stale.foldl (fun acc _ => UpdatePackageSpawn acc) p
  stale.foldl (fun acc c => UpdatePackageRun (upOk c) c acc) p

/-- The record mutations of main's upload stage (eager schedule). -/
def uploadStage (upOk : String → String → Bool) (pkgs : List Package) :
    List Package :=
  pkgs.map (fun p => uploadClustersEager (fun c => upOk c p.project) AllClusters p)

/-- One line of main's final report: for a cluster that needed an update,
whether it is reported as updated successfully; `none` for clusters that
needed no update (no line is printed). -/
def finalReportLine (p : Package) (cluster : String) : Option Bool :=
  if lookupBool p.needUpdate cluster then some (lookupBool p.updated cluster) else none

/-- The record (index) each spawned validation task writes: one task per
package. -/
def validationSpawnTargets (pkgs : List Package) : List Nat :=
  List.range pkgs.length

/-- The record (index) each spawned assessment task writes: one task per
valid package. -/
def assessmentSpawnTargets (pkgs : List Package) : List Nat :=
  (List.range pkgs.length).filter (fun i => (pkgs.getD i default).valid)

/-- The record (index) each spawned download task writes: one task per
package with a stale cluster. -/
def downloadSpawnTargets (pkgs : List Package) : List Nat :=
  (List.range pkgs.length).filter (fun i => needsDownload (pkgs.getD i default))

/-- The (record index, cluster) of each spawned upload task: one task per
(package, stale cluster) pair; the task writes record `i`. -/
def uploadSpawnTargets (pkgs : List Package) : List (Nat × String) :=
  (List.range pkgs.length).flatMap
    (fun i =>
      (AllClusters.filter (fun c => lookupBool (pkgs.getD i default).needUpdate c)).map
        (fun c => (i, c)))

/-- The driver's four possible control-flow outcomes. -/
inductive Outcome where
  | fatalNoPackages
  | fatalNoValid
  | cleanNoDownloads
  | completed (final : List Package)
deriving Repr, DecidableEq, Inhabited

/-- Source `main`, given the already-globbed package list: the
gate `len(pkgs) < 1` aborts fatally; after spawning assessment tasks for
the valid packages, `ItemsInChannels == 0` (no valid package) aborts
fatally; after spawning download tasks, `ItemsInChannels == 0` (no stale
package) exits cleanly; otherwise download, then upload, then the final
report run with no further gate. -/
def driver (probe : String → Option String)
    (tool : String → String → Except String String)
    (dl : String → DownloadOutcome) (upOk : String → String → Bool)
    (basedir : String) (pkgs0 : List Package) : Outcome :=
  if pkgs0.length < 1 then .fatalNoPackages
  else
    let pkgs1 := validationStage probe pkgs0
    let nAssess := (pkgs1.filter (fun p => p.valid)).length
    if nAssess > 0 then
      let pkgs2 := assessmentStage tool pkgs1
      let nDownload := (pkgs2.filter (fun p => needsDownload p)).length
      if nDownload > 0 then
        let pkgs3 := downloadStage dl basedir pkgs2
        .completed (uploadStage upOk pkgs3)
      else .cleanNoDownloads
    else .fatalNoValid

/-! ### Helper lemmas -/

theorem stringInArray_iff (s : String) (l : List String) :
    stringInArray s l = true ↔ s ∈ l := by
  induction l with
  | nil => simp [stringInArray]
  | cons v rest ih =>
    by_cases h : s = v
    · subst h; simp [stringInArray]
    · have hb : (s == v) = false := by simp [h]
      simp [stringInArray, hb, ih, h]

theorem blockUntilCompleteLoop_spec (n recvd : Nat) :
    BlockUntilCompleteLoop n recvd = (0, recvd + n) := by
  induction n generalizing recvd with
  | zero => rfl
  | succ k ih => simp [BlockUntilCompleteLoop, ih]; omega

theorem lookupBool_nil (k : String) : lookupBool [] k = false := rfl

theorem getD_map_pkg (f : Package → Package) (l : List Package) (i : Nat)
    (h : i < l.length) :
    (l.map f).getD i default = f (l.getD i default) := by
  rw [List.getD_eq_getElem?_getD, List.getD_eq_getElem?_getD, List.getElem?_map,
    List.getElem?_eq_getElem h]
  rfl

theorem getD_mem_pkg (l : List Package) (i : Nat) (h : i < l.length) :
    l.getD i default ∈ l := by
  rw [List.getD_eq_getElem?_getD, List.getElem?_eq_getElem h]
  exact List.getElem_mem h

theorem checkIfValid_needUpdate (probe : Option String) (p : Package) :
    ((CheckIfValidPackage probe p).2).needUpdate = p.needUpdate := by
  cases probe with
  | none => rfl
  | some ct =>
    simp only [CheckIfValidPackage]
    split <;> rfl

theorem findAllShaFuel_tokens (fuel : Nat) :
    ∀ (cs : List Char), ∀ s ∈ findAllShaFuel fuel cs,
      s.length = 40 ∧ s.data.all isShaChar = true := by
  induction fuel with
  | zero => intro cs s hs; simp [findAllShaFuel] at hs
  | succ k ih =>
    intro cs s hs
    cases cs with
    | nil => simp [findAllShaFuel] at hs
    | cons c rest =>
      simp only [findAllShaFuel] at hs
      by_cases h : (((c :: rest).take 40).length == 40 &&
          ((c :: rest).take 40).all isShaChar) = true
      · rw [if_pos h] at hs
        rcases List.mem_cons.mp hs with hhead | htail
        · subst hhead
          have h1 : (((c :: rest).take 40).length == 40) = true :=
            (Bool.and_eq_true _ _).mp h |>.1
          have h2 : (((c :: rest).take 40).all isShaChar) = true :=
            (Bool.and_eq_true _ _).mp h |>.2
          refine ⟨?_, h2⟩
          show ((c :: rest).take 40).length = 40
          simpa using h1
        · exact ih _ s htail
      · rw [if_neg h] at hs
        exact ih _ s hs

theorem findAllSha_tokens (cs : List Char) :
    ∀ s ∈ findAllSha cs, s.length = 40 ∧ s.data.all isShaChar = true :=
  findAllShaFuel_tokens cs.length cs

/-! ### Concrete fixtures -/

/-- A 40-character hexadecimal revision. -/
def shaA : String := String.mk (List.replicate 40 'a')

/-- A package whose `NeedUpdate` map marks both clusters stale. -/
def pkgBothStale : Package :=
  { artifact := "http://jenkins/x.zip", file := "", project := "projw",
    revision := shaA, needUpdate := [("atla", true), ("smf1", true)],
    updated := [], valid := true }

/-- A freshly decoded package record (maps empty, not yet validated). -/
def pkgW : Package :=
  { artifact := "http://jenkins/x.zip", file := "", project := "projw",
    revision := shaA, needUpdate := [], updated := [], valid := false }

/-- A probe oracle whose response carries a whitelisted content type. -/
def probeW : String → Option String := fun _ => some "application/zip"

/-- A probe oracle modelling `http.Get` failing. -/
def probeFailW : String → Option String := fun _ => none

/-- A query-tool oracle modelling `cmd.Run()` failing for every cluster. -/
def toolW : String → String → Except String String := fun _ _ => Except.error "exec failed"

/-- A download oracle in which every fetch succeeds. -/
def dlW : String → DownloadOutcome := fun _ => DownloadOutcome.ok 10

/-- An upload-tool oracle in which every `package_add_version` succeeds. -/
def upOkW : String → String → Bool := fun _ _ => true

/-! ### Claim theorems -/

/-- C1: the claim says every spawned task sends exactly one result on every
code path, in particular that the download task delivers even when directory
creation, the network fetch or the stream copy fails.  The code violates
this: `DownloadArtifact`'s goroutine returns early on each of its four
failure paths without sending, so it delivers zero results there (the drain
loop would block forever), while the success path and the validation,
assessment, upload and decode tasks do send exactly once. -/
theorem C1_download_task_sends_nothing_on_failure :
    (DownloadArtifact "downloads_tmp" DownloadOutcome.mkdirFail pkgBothStale).1.length = 0 ∧
    (DownloadArtifact "downloads_tmp" DownloadOutcome.createFail pkgBothStale).1.length = 0 ∧
    (DownloadArtifact "downloads_tmp" DownloadOutcome.fetchFail pkgBothStale).1.length = 0 ∧
    (DownloadArtifact "downloads_tmp" DownloadOutcome.copyFail pkgBothStale).1.length = 0 ∧
    (DownloadArtifact "downloads_tmp" (DownloadOutcome.ok 5) pkgBothStale).1.length = 1 ∧
    (CheckIfValidPackage none pkgBothStale).1.length = 1 ∧
    (IsUpdateNeeded toolW pkgBothStale).1.length = 1 ∧
    (UpdatePackage false "atla" pkgBothStale).1.length = 1 ∧
    (decodeJsonFile "cfg/foo.json" none).length = 1 :=
  ⟨rfl, rfl, rfl, rfl, rfl, rfl, rfl, rfl, rfl⟩

/-- C2: the claim says that after the upload stage the `updated` map has one
entry per attempted cluster and no earlier entry is lost.  The code violates
this: `UpdatePackage` re-creates the `Updated` map on every call, so when a
package is stale in both clusters and the first cluster's task completes
before the second cluster's task is spawned (a legal schedule), the first
cluster's entry is discarded: only `smf1` remains, `atla`'s key is gone, and
the final report prints `atla` as NOT updated although its upload tool
succeeded. -/
theorem C2_updated_entry_lost_on_eager_schedule :
    (uploadClustersEager (fun _ => true) AllClusters pkgBothStale).updated = [("smf1", true)] ∧
    hasKey (uploadClustersEager (fun _ => true) AllClusters pkgBothStale).updated "atla" = false ∧
    finalReportLine (uploadClustersEager (fun _ => true) AllClusters pkgBothStale) "atla" = some false ∧
    (uploadClustersLazy (fun _ => true) AllClusters pkgBothStale).updated =
      [("atla", true), ("smf1", true)] := by
  refine ⟨by decide, by decide, by decide, by decide⟩

/-- C3: for every pool state, `BlockUntilComplete` receives from the shared
completion channel exactly outstanding-count many times (the channel
position advances by exactly that much), decrementing the count to zero, and
`AddFuture` increments the count by exactly one per registered future. -/
theorem C3_pool_drains_exactly (f : Futures) :
    (BlockUntilComplete f).itemsInChannels = 0 ∧
    (BlockUntilComplete f).received = f.received + f.itemsInChannels ∧
    (AddFuture f).itemsInChannels = f.itemsInChannels + 1 := by
  refine ⟨?_, ?_, rfl⟩
  · simp [BlockUntilComplete, blockUntilCompleteLoop_spec]
  · simp [BlockUntilComplete, blockUntilCompleteLoop_spec]

/-- C4: for every (package, cluster) assessment, the need-update decision is
fail-open: it is "does not need update" (false) exactly when the remote
query tool succeeded, at least one 40-hex-character token was found in its
output, and the last token equals the package's declared revision — tool
failure or zero tokens always yield "needs update"; and every extracted
token is indeed 40 hexadecimal characters. -/
theorem C4_need_update_decision (p : Package) (cluster : String)
    (res : Except String String) :
    ((clusterOkToUpdate p cluster res).1 = false ↔
      ∃ out, res = Except.ok out ∧ findAllSha out.data ≠ [] ∧
        (findAllSha out.data).getLastD "" = p.revision) ∧
    (∀ out : String, ∀ s ∈ findAllSha out.data,
      s.length = 40 ∧ s.data.all isShaChar = true) := by
  refine ⟨?_, fun out => findAllSha_tokens out.data⟩
  cases res with
  | error e => simp [clusterOkToUpdate]
  | ok out =>
    rcases Nat.lt_or_ge (findAllSha out.data).length 1 with h | h
    · have hnil : findAllSha out.data = [] := by
        cases hfa : findAllSha out.data with
        | nil => rfl
        | cons a l => rw [hfa] at h; simp at h
      simp [clusterOkToUpdate, hnil]
    · have hne : findAllSha out.data ≠ [] := by
        intro hnil; rw [hnil] at h; simp at h
      have hlt : ¬ (findAllSha out.data).length < 1 := by omega
      by_cases hrev : p.revision = (findAllSha out.data).getLast?.getD ""
      · simp [clusterOkToUpdate, hlt, hrev, hne]
      · have hrev2 : ¬ (findAllSha out.data).getLast?.getD "" = p.revision := fun hh =>
          hrev hh.symm
        simp [clusterOkToUpdate, hlt, hrev, hne, hrev2]

/-- C6: main's per-package download loop spawns exactly one download task
when some cluster's need-update flag is true — stopping at the first stale
cluster, not one task per stale cluster — and none when no cluster is
stale. -/
theorem C6_one_download_per_stale_package (p : Package) :
    (∀ clusters : List String,
      spawnDownloadForPkg clusters p =
        if clusters.any (fun c => lookupBool p.needUpdate c) then 1 else 0) ∧
    spawnDownloadForPkg AllClusters p = (if needsDownload p then 1 else 0) := by
  have hgen : ∀ clusters : List String,
      spawnDownloadForPkg clusters p =
        if clusters.any (fun c => lookupBool p.needUpdate c) then 1 else 0 := by
    intro clusters
    induction clusters with
    | nil => rfl
    | cons c rest ih =>
      by_cases h : lookupBool p.needUpdate c = true
      · simp [spawnDownloadForPkg, h]
      · simp only [Bool.not_eq_true] at h
        simp [spawnDownloadForPkg, h, ih]
  exact ⟨hgen, by rw [hgen]; rfl⟩

/-- C8: the validation task sets `Valid` to true exactly when the probe
succeeds with a whitelisted content type (probe failure or any other
content type yields false), and no later task (assessment, download,
upload) ever changes `Valid`. -/
theorem C8_validity_classification (probe : Option String) (p : Package) :
    (((CheckIfValidPackage probe p).2).valid = true ↔
      ∃ ct, probe = some ct ∧ ct ∈ acceptableMIMETypes) ∧
    (∀ tool, ((IsUpdateNeeded tool p).2).valid = p.valid) ∧
    (∀ basedir outcome, ((DownloadArtifact basedir outcome p).2).valid = p.valid) ∧
    (∀ upOk cluster, ((UpdatePackage upOk cluster p).2).valid = p.valid) := by
  refine ⟨?_, fun tool => rfl, fun basedir outcome => ?_, fun upOk cluster => rfl⟩
  · cases probe with
    | none => simp [CheckIfValidPackage]
    | some ct =>
      by_cases h : stringInArray ct acceptableMIMETypes = true
      · simp [CheckIfValidPackage, h, (stringInArray_iff ct acceptableMIMETypes).mp h]
      · have hm : ct ∉ acceptableMIMETypes := fun hmem =>
          h ((stringInArray_iff _ _).mpr hmem)
        simp only [Bool.not_eq_true] at h
        simp [CheckIfValidPackage, h, hm]
  · cases outcome <;> rfl

/-- C9 as stated is false: in the upload stage, a package that is stale in
two clusters gets two concurrently running tasks that both write that
package's record (its `Updated` map) — the stage's spawned tasks do not
target pairwise distinct records. -/
theorem C9_upload_stage_violates_single_writer :
    ¬ ((uploadSpawnTargets [pkgBothStale]).map Prod.fst).Nodup := by decide

/-- C9 amended: the single-writer-per-record discipline holds for the
validation, assessment and download stages (their spawned tasks target
pairwise distinct records), but the upload stage spawns one task per
(package, stale cluster) pair — so a package with two or more stale
clusters is written by that many concurrent tasks in that stage. -/
theorem C9_single_writer_except_upload (pkgs : List Package) :
    (validationSpawnTargets pkgs).Nodup ∧
    (assessmentSpawnTargets pkgs).Nodup ∧
    (downloadSpawnTargets pkgs).Nodup ∧
    ∀ (i : Nat) (c : String),
      ((i, c) ∈ uploadSpawnTargets pkgs ↔
        i < pkgs.length ∧ c ∈ AllClusters ∧
          lookupBool (pkgs.getD i default).needUpdate c = true) := by
  refine ⟨List.nodup_range _, (List.nodup_range _).filter _,
    (List.nodup_range _).filter _, ?_⟩
  intro i c
  simp only [uploadSpawnTargets, List.mem_flatMap, List.mem_range, List.mem_map,
    List.mem_filter, Prod.mk.injEq]
  constructor
  · rintro ⟨j, hj, cc, ⟨hcc, hl⟩, hji, hcc2⟩
    subst hji; subst hcc2
    exact ⟨hj, hcc, hl⟩
  · rintro ⟨hi, hc, hl⟩
    exact ⟨i, hi, c, ⟨hc, hl⟩, rfl, rfl⟩

/-- Witness for `C4_need_update_decision`: with a successful tool run whose
output is exactly the package's 40-hex revision, the decision is "does not
need update", and the token has length 40. -/
theorem C4_need_update_decision_witness :
    (clusterOkToUpdate pkgBothStale "atla" (Except.ok shaA)).1 = false ∧
    shaA.length = 40 := by
  have h := C4_need_update_decision pkgBothStale "atla" (Except.ok shaA)
  exact ⟨h.1.mpr ⟨shaA, rfl, by decide, by decide⟩, (h.2 shaA shaA (by decide)).1⟩

/-- C5: a package that the validation stage left with `validity = false`
(and whose decoded record had, as all decoded records do, an empty
`NeedUpdate` map) is never the target of an assessment task, a download
task, or an upload task. -/
theorem C5_invalid_spawns_nothing (probe : String → Option String)
    (tool : String → String → Except String String) (pkgs0 : List Package)
    (h0 : ∀ p ∈ pkgs0, p.needUpdate = []) (i : Nat)
    (hv : ((validationStage probe pkgs0).getD i default).valid = false) :
    i ∉ assessmentSpawnTargets (validationStage probe pkgs0) ∧
    i ∉ downloadSpawnTargets (assessmentStage tool (validationStage probe pkgs0)) ∧
    ∀ c, (i, c) ∉ uploadSpawnTargets (assessmentStage tool (validationStage probe pkgs0)) := by
  by_cases hi : i < pkgs0.length
  · have hNU1 : ((validationStage probe pkgs0).getD i default).needUpdate = [] := by
      simp only [validationStage]
      rw [getD_map_pkg _ _ _ hi, checkIfValid_needUpdate]
      exact h0 _ (getD_mem_pkg pkgs0 i hi)
    have hi1 : i < (validationStage probe pkgs0).length := by
      simpa [validationStage] using hi
    have hNU2 : ((assessmentStage tool (validationStage probe pkgs0)).getD i
        default).needUpdate = [] := by
      simp only [assessmentStage]
      rw [getD_map_pkg _ _ _ hi1, if_neg (by rw [hv]; exact Bool.false_ne_true)]
      exact hNU1
    refine ⟨?_, ?_, ?_⟩
    · intro hmem
      simp only [assessmentSpawnTargets, List.mem_filter, List.mem_range] at hmem
      rw [hv] at hmem
      exact Bool.false_ne_true hmem.2
    · intro hmem
      simp only [downloadSpawnTargets, List.mem_filter, List.mem_range] at hmem
      have hnd : needsDownload ((assessmentStage tool (validationStage probe pkgs0)).getD
          i default) = false := by
        simp only [needsDownload]
        rw [hNU2]
        decide
      rw [hnd] at hmem
      exact Bool.false_ne_true hmem.2
    · intro c hmem
      simp only [uploadSpawnTargets, List.mem_flatMap, List.mem_range, List.mem_map,
        List.mem_filter, Prod.mk.injEq] at hmem
      rcases hmem with ⟨j, hj, cc, ⟨hcc, hl⟩, hji, hcc2⟩
      subst hji; subst hcc2
      rw [hNU2] at hl
      exact Bool.false_ne_true hl
  · have hi1 : ¬ i < (validationStage probe pkgs0).length := by
      simpa [validationStage] using hi
    have hi2 : ¬ i < (assessmentStage tool (validationStage probe pkgs0)).length := by
      simpa [assessmentStage, validationStage] using hi
    refine ⟨?_, ?_, ?_⟩
    · intro hmem
      simp only [assessmentSpawnTargets, List.mem_filter, List.mem_range] at hmem
      exact hi1 (by simpa [validationStage] using hmem.1)
    · intro hmem
      simp only [downloadSpawnTargets, List.mem_filter, List.mem_range] at hmem
      exact hi2 hmem.1
    · intro c hmem
      simp only [uploadSpawnTargets, List.mem_flatMap, List.mem_range, List.mem_map,
        List.mem_filter, Prod.mk.injEq] at hmem
      rcases hmem with ⟨j, hj, cc, _, hji, _⟩
      subst hji
      exact hi2 hj

/-- Witness for `C5_invalid_spawns_nothing`: one decoded package whose
probe fails (hence invalid) is spawned in no later stage. -/
theorem C5_invalid_spawns_nothing_witness :
    0 ∉ assessmentSpawnTargets (validationStage probeFailW [pkgW]) ∧
    0 ∉ downloadSpawnTargets (assessmentStage toolW (validationStage probeFailW [pkgW])) ∧
    (0, "atla") ∉ uploadSpawnTargets (assessmentStage toolW (validationStage probeFailW [pkgW])) := by
  have h := C5_invalid_spawns_nothing probeFailW toolW [pkgW] (by decide) 0 (by decide)
  exact ⟨h.1, h.2.1, h.2.2 "atla"⟩

theorem filter_length_pos_iff (l : List Package) (pred : Package → Bool) :
    0 < (l.filter pred).length ↔ ∃ p ∈ l, pred p = true := by
  rw [List.length_pos]
  constructor
  · intro hne
    by_contra hno
    push_neg at hno
    refine hne (List.filter_eq_nil_iff.mpr ?_)
    intro a ha
    simpa using hno a ha
  · rintro ⟨p, hp, hpred⟩ hnil
    have hfa := List.filter_eq_nil_iff.mp hnil p hp
    rw [hpred] at hfa
    exact hfa rfl

/-- C7: the driver aborts fatally exactly when no packages were found;
aborts fatally exactly when packages exist but none passed validation;
exits cleanly exactly when some package is valid but no package needs any
download; and in every remaining case proceeds through the download and
the upload stage with no further short-circuit. -/
theorem C7_driver_gates (probe : String → Option String)
    (tool : String → String → Except String String)
    (dl : String → DownloadOutcome) (upOk : String → String → Bool)
    (basedir : String) (pkgs0 : List Package) :
    (driver probe tool dl upOk basedir pkgs0 = Outcome.fatalNoPackages ↔ pkgs0 = []) ∧
    (driver probe tool dl upOk basedir pkgs0 = Outcome.fatalNoValid ↔
      pkgs0 ≠ [] ∧ ∀ p ∈ validationStage probe pkgs0, p.valid = false) ∧
    (driver probe tool dl upOk basedir pkgs0 = Outcome.cleanNoDownloads ↔
      pkgs0 ≠ [] ∧ (∃ p ∈ validationStage probe pkgs0, p.valid = true) ∧
        ∀ p ∈ assessmentStage tool (validationStage probe pkgs0), needsDownload p = false) ∧
    ((pkgs0 ≠ [] ∧ (∃ p ∈ validationStage probe pkgs0, p.valid = true) ∧
        ∃ p ∈ assessmentStage tool (validationStage probe pkgs0), needsDownload p = true) →
      driver probe tool dl upOk basedir pkgs0 =
        Outcome.completed (uploadStage upOk (downloadStage dl basedir
          (assessmentStage tool (validationStage probe pkgs0))))) := by
  by_cases h0 : pkgs0 = []
  · subst h0
    simp [driver, validationStage, assessmentStage]
  · have hlen : ¬ pkgs0.length < 1 := by
      cases pkgs0 with
      | nil => exact absurd rfl h0
      | cons a l => simp
    by_cases h1 : ∃ p ∈ validationStage probe pkgs0, p.valid = true
    · have hpos1 : ((validationStage probe pkgs0).filter (fun p => p.valid)).length > 0 :=
        (filter_length_pos_iff _ _).mpr h1
      have hnall1 : ¬ ∀ p ∈ validationStage probe pkgs0, p.valid = false := by
        rcases h1 with ⟨p, hp, hv⟩
        intro hall
        rw [hall p hp] at hv
        exact Bool.false_ne_true hv
      by_cases h2 : ∃ p ∈ assessmentStage tool (validationStage probe pkgs0),
          needsDownload p = true
      · have hpos2 : ((assessmentStage tool (validationStage probe pkgs0)).filter
            (fun p => needsDownload p)).length > 0 :=
          (filter_length_pos_iff _ _).mpr h2
        have hnall2 : ¬ ∀ p ∈ assessmentStage tool (validationStage probe pkgs0),
            needsDownload p = false := by
          rcases h2 with ⟨p, hp, hv⟩
          intro hall
          rw [hall p hp] at hv
          exact Bool.false_ne_true hv
        have hd : driver probe tool dl upOk basedir pkgs0 =
            Outcome.completed (uploadStage upOk (downloadStage dl basedir
              (assessmentStage tool (validationStage probe pkgs0)))) := by
          simp only [driver]
          rw [if_neg hlen, if_pos hpos1, if_pos hpos2]
        refine ⟨?_, ?_, ?_, fun _ => hd⟩ <;> rw [hd] <;> simp [h0, hnall1, hnall2]
      · have hzero2 : ¬ ((assessmentStage tool (validationStage probe pkgs0)).filter
            (fun p => needsDownload p)).length > 0 := by
          rw [gt_iff_lt, filter_length_pos_iff]
          exact h2
        have hall2 : ∀ p ∈ assessmentStage tool (validationStage probe pkgs0),
            needsDownload p = false := by
          intro p hp
          by_contra hc
          exact h2 ⟨p, hp, by simpa using hc⟩
        have hd : driver probe tool dl upOk basedir pkgs0 = Outcome.cleanNoDownloads := by
          simp only [driver]
          rw [if_neg hlen, if_pos hpos1, if_neg hzero2]
        refine ⟨?_, ?_, ?_, ?_⟩
        · rw [hd]; simp [h0]
        · rw [hd]; simp [h0, hnall1]
        · rw [hd]
          simp only [true_iff, ne_eq, h0, not_false_iff, true_and]
          exact ⟨h1, hall2⟩
        · rintro ⟨-, -, p, hp, hv⟩
          rw [hall2 p hp] at hv
          exact absurd hv Bool.false_ne_true
    · have hzero1 : ¬ ((validationStage probe pkgs0).filter (fun p => p.valid)).length > 0 := by
        rw [gt_iff_lt, filter_length_pos_iff]
        exact h1
      have hall1 : ∀ p ∈ validationStage probe pkgs0, p.valid = false := by
        intro p hp
        by_contra hc
        exact h1 ⟨p, hp, by simpa using hc⟩
      have hd : driver probe tool dl upOk basedir pkgs0 = Outcome.fatalNoValid := by
        simp only [driver]
        rw [if_neg hlen, if_neg hzero1]
      refine ⟨?_, ?_, ?_, ?_⟩
      · rw [hd]; simp [h0]
      · rw [hd]
        simp only [true_iff]
        exact ⟨h0, hall1⟩
      · rw [hd]; simp [h0, h1]
      · rintro ⟨-, h1x, -⟩
        exact absurd h1x h1

/-- Witness for `C7_driver_gates`: one valid package whose query tool fails
(fail-open: both clusters stale) drives the pipeline all the way through
download and upload. -/
theorem C7_driver_gates_witness :
    driver probeW toolW dlW upOkW "downloads_tmp" [pkgW] =
      Outcome.completed (uploadStage upOkW (downloadStage dlW "downloads_tmp"
        (assessmentStage toolW (validationStage probeW [pkgW])))) :=
  (C7_driver_gates probeW toolW dlW upOkW "downloads_tmp" [pkgW]).2.2.2
    ⟨by decide, by decide, by decide⟩

/-- C10: the decode step delivers exactly one package record for every
manifest file, also when opening or JSON-decoding fails; its project name
is always derived from the file name, on failure its artifact URL and
revision stay empty, and `GetAllPackages` therefore yields one record per
glob match (so unparseable manifests still count toward the no-packages
gate). -/
theorem C10_decode_always_delivers (jsonFile : String)
    (content : Option (Option ManifestJson)) :
    (decodeJsonFile jsonFile content).length = 1 ∧
    ((decodeJsonFile jsonFile content).getD 0 default).project = projectFromFile jsonFile ∧
    ((content = none ∨ content = some none) →
      ((decodeJsonFile jsonFile content).getD 0 default).artifact = "" ∧
      ((decodeJsonFile jsonFile content).getD 0 default).revision = "") ∧
    ∀ (globs : List String) (oracle : String → Option (Option ManifestJson)),
      (GetAllPackages globs oracle).length = globs.length := by
  refine ⟨?_, ?_, ?_, ?_⟩
  · cases content with
    | none => rfl
    | some c => cases c <;> rfl
  · cases content with
    | none => rfl
    | some c => cases c <;> rfl
  · rintro (h | h) <;> subst h <;> exact ⟨rfl, rfl⟩
  · intro globs oracle
    induction globs with
    | nil => rfl
    | cons g rest ih =>
      have h1 : (decodeJsonFile g (oracle g)).length = 1 := by
        cases hc : oracle g with
        | none => rfl
        | some c => cases c <;> rfl
      simp only [GetAllPackages] at ih ⊢
      rw [List.flatMap_cons, List.length_append, ih, h1, List.length_cons]
      omega

/-- Witness for `C10_decode_always_delivers`: a manifest whose file cannot
be opened still yields one record, with empty artifact and revision and the
project name taken from the file name. -/
theorem C10_decode_always_delivers_witness :
    (decodeJsonFile "cfg/foo.json" none).length = 1 ∧
    ((decodeJsonFile "cfg/foo.json" none).getD 0 default).artifact = "" ∧
    ((decodeJsonFile "cfg/foo.json" none).getD 0 default).revision = "" ∧
    ((decodeJsonFile "cfg/foo.json" none).getD 0 default).project = "foo" := by
  have h := C10_decode_always_delivers "cfg/foo.json" none
  refine ⟨h.1, (h.2.2.1 (Or.inl rfl)).1, (h.2.2.1 (Or.inl rfl)).2, ?_⟩
  rw [h.2.1]
  decide

end JenkinsUploader
